import Mathlib

/-!
Shallow embedding of the payment-card validation module
(`validateCardNumber`, `identifyCardType`, `validateCVV`,
`validateExpirationDate`, `formatCardNumber`, `maskCardNumber`,
`validatePaymentInfo`).  Strings are Lean `String`s; the ambient clock used
by `validateExpirationDate` (`new Date()`) is made an explicit
`(currentMonth, currentYear)` parameter; JavaScript `parseInt` and its `NaN`
are modelled by `Option Int` with `none` for `NaN`, and the JS comparison
operators on possibly-`NaN` numbers by `jsLt`/`jsGt`/`jsEqb` (every
comparison with `NaN` is false).
-/

namespace CampusSwap

/-- Character class of the regex `/\D/`'s complement: an ASCII digit. -/
def isDigitChar (c : Char) : Bool := 48 ≤ c.toNat && c.toNat ≤ 57

/-- The JS idiom `s.replace(/\D/g, '')`: keep only the digit characters. -/
def cleanDigits (s : String) : String := String.mk (s.data.filter isDigitChar)

/-- `parseInt(c, 10)` on a single digit character. -/
def digitVal (c : Char) : Nat := c.toNat - 48

/-- The loop of `validateCardNumber`, read over the reversed digit list:
the flag is `isEven`, false on the rightmost digit and toggled each step;
a flagged digit is doubled and reduced by 9 when the double exceeds 9. -/
def luhnAux : List Char → Bool → Nat
  | [], _ => 0
  | c :: rest, dbl =>
      (if dbl then
        (if 2 * digitVal c > 9 then 2 * digitVal c - 9 else 2 * digitVal c)
      else digitVal c) + luhnAux rest (!dbl)

/-- `validateCardNumber(cardNumber)`: clean, require length 13..19, then the
mod-10 check on the alternating-doubling sum from the right. -/
def validateCardNumber (cardNumber : String) : Bool :=
  let cleaned := cleanDigits cardNumber
  if cleaned.length < 13 || cleaned.length > 19 then false
  else luhnAux cleaned.data.reverse false % 10 == 0

/-- The card networks the source distinguishes (source carries them as the
strings 'Visa', 'Mastercard', 'American Express', 'Discover', 'Unknown'). -/
inductive CardType where
  | Visa
  | Mastercard
  | AmericanExpress
  | Discover
  | Unknown
deriving DecidableEq

/-- `lo.toNat <= c.toNat <= hi.toNat`, the regex character class `[lo-hi]`. -/
def charBetween (lo : Char) (c : Char) (hi : Char) : Bool :=
  lo.toNat ≤ c.toNat && c.toNat ≤ hi.toNat

/-- The regex test `/^4/`. -/
def visaStart : List Char → Bool
  | c :: _ => c == '4'
  | [] => false

/-- The regex test `/^5[1-5]/ || /^2[2-7]/`. -/
def mcStart : List Char → Bool
  | a :: b :: _ => (a == '5' && charBetween '1' b '5') || (a == '2' && charBetween '2' b '7')
  | _ => false

/-- The regex test `/^3[47]/`. -/
def amexStart : List Char → Bool
  | a :: b :: _ => a == '3' && (b == '4' || b == '7')
  | _ => false

/-- The alternation `12[6-9]|1[3-9][0-9]|[2-8][0-9]{2}|9[01][0-9]|92[0-5]`
applied after a leading `622`. -/
def d622 : List Char → Bool
  | a :: b :: c :: _ =>
      (a == '1' && b == '2' && charBetween '6' c '9') ||
      (a == '1' && charBetween '3' b '9' && isDigitChar c) ||
      (charBetween '2' a '8' && isDigitChar b && isDigitChar c) ||
      (a == '9' && (b == '0' || b == '1') && isDigitChar c) ||
      (a == '9' && b == '2' && charBetween '0' c '5')
  | _ => false

/-- The part of the Discover regex after the leading `6`:
`011|5|4[4-9]|22(?:...)`. -/
def discTail : List Char → Bool
  | a :: rest =>
      (a == '0' && (match rest with | b :: c :: _ => b == '1' && c == '1' | _ => false)) ||
      (a == '5') ||
      (a == '4' && (match rest with | b :: _ => charBetween '4' b '9' | _ => false)) ||
      (a == '2' && (match rest with | b :: t => b == '2' && d622 t | _ => false))
  | [] => false

/-- The regex test `/^6(?:011|5|4[4-9]|22(?:12[6-9]|1[3-9][0-9]|[2-8][0-9]{2}|9[01][0-9]|92[0-5]))/`. -/
def discStart : List Char → Bool
  | c :: rest => c == '6' && discTail rest
  | [] => false

/-- `identifyCardType(cardNumber)`: clean, then the regex tests in source
order (Visa, Mastercard, American Express, Discover, else Unknown). -/
def identifyCardType (cardNumber : String) : CardType :=
  let cleaned := cleanDigits cardNumber
  if visaStart cleaned.data then CardType.Visa
  else if mcStart cleaned.data then CardType.Mastercard
  else if amexStart cleaned.data then CardType.AmericanExpress
  else if discStart cleaned.data then CardType.Discover
  else CardType.Unknown

/-- `validateCVV(cvv, cardType)`: clean, then the cleaned length must be 4
for American Express and 3 for every other network. -/
def validateCVV (cvv : String) (cardType : CardType) : Bool :=
  let cleaned := cleanDigits cvv
  if cardType = CardType.AmericanExpress then cleaned.length == 4 else cleaned.length == 3

/-- The whitespace skipped by `parseInt` and trimmed by `String.trim`. -/
def isSpaceChar (c : Char) : Bool := c == ' ' || c == '\t' || c == '\n' || c == '\r'

/-- The longest leading run of digits, as a number; `none` when there is no
leading digit (`parseInt` yields `NaN`). -/
def leadDigitsVal (cs : List Char) : Option Nat :=
  let ds := cs.takeWhile isDigitChar
  if ds.isEmpty then none
  else some (ds.foldl (fun a c => 10 * a + digitVal c) 0)

/-- `parseInt(s, 10)`: skip leading whitespace, optional sign, then the
longest digit run; `none` models `NaN`. -/
def parseIntJS (s : String) : Option Int :=
  match s.data.dropWhile isSpaceChar with
  | '-' :: rest => (leadDigitsVal rest).map (fun n => -(n : Int))
  | '+' :: rest => (leadDigitsVal rest).map (fun n => (n : Int))
  | rest => (leadDigitsVal rest).map (fun n => (n : Int))

/-- JS `<` on possibly-`NaN` numbers: false when either side is `NaN`. -/
def jsLt : Option Int → Option Int → Bool
  | some a, some b => decide (a < b)
  | _, _ => false

/-- JS `>` on possibly-`NaN` numbers: false when either side is `NaN`. -/
def jsGt : Option Int → Option Int → Bool
  | some a, some b => decide (b < a)
  | _, _ => false

/-- JS `===` on possibly-`NaN` numbers: false when either side is `NaN`
(`NaN === NaN` is false). -/
def jsEqb : Option Int → Option Int → Bool
  | some a, some b => a == b
  | _, _ => false

/-- `validateExpirationDate(month, year)` with the current date passed
explicitly.  Every branch is the source's, through the JS comparison
semantics on possibly-`NaN` parse results. -/
def validateExpirationDate (month year : String) (currentMonth currentYear : Int) : Bool :=
  let expMonth := parseIntJS month
  let expYear := parseIntJS year
  if jsLt expMonth (some 1) || jsGt expMonth (some 12) then false
  else
    let fullExpYear := if jsLt expYear (some 100) then Option.map (fun n => 2000 + n) expYear else expYear
    if jsLt fullExpYear (some currentYear) then false
    else if jsEqb fullExpYear (some currentYear) && jsLt expMonth (some currentMonth) then false
    else if jsGt fullExpYear (some (currentYear + 20)) then false
    else true

/-- The global replace `cleaned.replace(/(\d{4})/g, '$1 ')`: every complete
4-digit group gets a trailing space, a shorter tail is kept as is. -/
def group4 : List Char → List Char
  | a :: b :: c :: d :: rest => a :: b :: c :: d :: ' ' :: group4 rest
  | l => l

/-- `String.trim`: drop leading and trailing whitespace. -/
def jsTrim (l : List Char) : List Char :=
  ((l.dropWhile isSpaceChar).reverse.dropWhile isSpaceChar).reverse

/-- `formatCardNumber(cardNumber)`.  The American Express branch is the
single (first-match) replace of `/(\d{4})(\d{6})(\d{5})/` with
`'$1 $2 $3'`: on an all-digit string it fires iff at least 15 digits are
present, matches the first 15, and keeps the rest; the other branch is the
global 4-digit grouping followed by `trim`. -/
def formatCardNumber (cardNumber : String) : String :=
  let cleaned := cleanDigits cardNumber
  let cardType := identifyCardType cleaned
  if cardType = CardType.AmericanExpress then
    if cleaned.data.length < 15 then cleaned
    else String.mk (cleaned.data.take 4 ++ ' ' :: (cleaned.data.drop 4).take 6 ++
      ' ' :: ((cleaned.data.drop 10).take 5 ++ cleaned.data.drop 15))
  else String.mk (jsTrim (group4 cleaned.data))

/-- The literal mask head of the template `` `•••• •••• •••• ${last4}` ``. -/
def maskHead : String := "•••• •••• •••• "

/-- `maskCardNumber(cardNumber)`: `cleaned.slice(-4)` is `drop (length - 4)`
(for fewer than 4 characters, the whole string), appended to the mask head. -/
def maskCardNumber (cardNumber : String) : String :=
  let cleaned := cleanDigits cardNumber
  String.mk (maskHead.data ++ cleaned.data.drop (cleaned.data.length - 4))

/-- Error message pushed when `validateCardNumber` fails. -/
def cardErrMsg : String := "Invalid card number. Please check and try again."

/-- Error message pushed when `validateCVV` fails: the template
`` `Invalid CVV. ${cardType === 'American Express' ? '4 digits required' : '3 digits required'}.` ``. -/
def cvvErrMsg (cardType : CardType) : String :=
  if cardType = CardType.AmericanExpress then "Invalid CVV. 4 digits required."
  else "Invalid CVV. 3 digits required."

/-- Error message pushed when `validateExpirationDate` fails. -/
def expErrMsg : String := "Card is expired or has invalid expiration date."

/-- The result object of `validatePaymentInfo`. -/
structure PaymentResult where
  isValid : Bool
  cardType : CardType
  errors : List String
  formattedNumber : String
  maskedNumber : String

/-- `validatePaymentInfo(cardNumber, cvv, month, year)` with the current
date passed explicitly: identify the network, push one message per failing
check, and report validity as `errors.length === 0`. -/
def validatePaymentInfo (cardNumber cvv month year : String)
    (currentMonth currentYear : Int) : PaymentResult :=
  let cardType := identifyCardType cardNumber
  let errors :=
    (if validateCardNumber cardNumber then [] else [cardErrMsg]) ++
    (if validateCVV cvv cardType then [] else [cvvErrMsg cardType]) ++
    (if validateExpirationDate month year currentMonth currentYear then [] else [expErrMsg])
  { isValid := errors.length == 0
    cardType := cardType
    errors := errors
    formattedNumber := formatCardNumber cardNumber
    maskedNumber := maskCardNumber cardNumber }

/-!
Spec-side definitions: written from the words of the specification, to be
compared with the source-side definitions above.
-/

/-- Spec-side doubling rule: double the digit and subtract 9 when the
doubled value exceeds 9. -/
def luhnDouble (d : Nat) : Nat := if 2 * d > 9 then 2 * d - 9 else 2 * d

/-- Spec-side checksum over digit values listed from the rightmost digit
leftward: the digit at index `i` (the rightmost having index 0) is doubled
exactly when `i` is odd. -/
def specSumFrom : Nat → List Nat → Nat
  | _, [] => 0
  | i, d :: rest => (if i % 2 = 1 then luhnDouble d else d) + specSumFrom (i + 1) rest

/-- Spec-side "starting with": the pattern is an initial run of the list. -/
def startsList : List Char → List Char → Bool
  | [], _ => true
  | _ :: _, [] => false
  | p :: ps, c :: cs => p == c && startsList ps cs

/-- The numeric value of the first `n` characters, with accumulator
(`none` when fewer than `n` characters are present). -/
def takeVal : Nat → List Char → Nat → Option Nat
  | 0, _, acc => some acc
  | _ + 1, [], _ => none
  | n + 1, c :: cs, acc => takeVal n cs (10 * acc + digitVal c)

/-- Spec-side "an n-digit head in the range lo–hi". -/
def valInRange (n lo hi : Nat) (cs : List Char) : Bool :=
  match takeVal n cs 0 with
  | some v => lo ≤ v && v ≤ hi
  | none => false

/-- The network classification as claim C5 words it: Visa on a leading 4;
American Express on 34 or 37; Mastercard on 51–55 or 22–27; Discover on
6011, 65, 644–649 or a six-digit head in 622126–622925; otherwise Unknown.
The alternatives touch disjoint leading digits, so the branch order is
immaterial; it is kept parallel to the source for the comparison. -/
def specIdentifyCardType (s : String) : CardType :=
  let cs := (cleanDigits s).data
  if startsList [ '4' ] cs then CardType.Visa
  else if valInRange 2 51 55 cs || valInRange 2 22 27 cs then CardType.Mastercard
  else if startsList [ '3', '4' ] cs || startsList [ '3', '7' ] cs then CardType.AmericanExpress
  else if startsList [ '6', '0', '1', '1' ] cs || startsList [ '6', '5' ] cs ||
      valInRange 3 644 649 cs || valInRange 6 622126 622925 cs then CardType.Discover
  else CardType.Unknown

/-- The spec's resolved year: `2000 + year` for a year below 100, the year
itself otherwise. -/
def resolveYear (ey : Int) : Int := if ey < 100 then 2000 + ey else ey

/-- Spec-side grouping in blocks of 4 digits left to right: a single space
between consecutive complete blocks, no stray trailing space. -/
def specGroup4 (l : List Char) : List Char :=
  if l.length ≤ 4 then l
  else l.take 4 ++ ' ' :: specGroup4 (l.drop 4)
termination_by l.length
decreasing_by simp; omega

/-- Removing every space of a string (for the formatting round-trip). -/
def removeSpaces (s : String) : String := String.mk (s.data.filter (fun c => !(c == ' ')))

/-- The pattern occurs as a contiguous run of the list. -/
def hasSub : List Char → List Char → Bool
  | p, [] => p.isEmpty
  | p, c :: t => p.isPrefixOf (c :: t) || hasSub p t

/-- The needle occurs inside the hay ("the message mentions ..."). -/
def containsSub (needle hay : String) : Bool := hasSub needle.data hay.data

/-!
Helper lemmas.
-/

/-- Two booleans agreeing as propositions are equal. -/
theorem bool_eq_of_iff {x y : Bool} (h : x = true ↔ y = true) : x = y := by
  cases x <;> cases y <;> simp_all

/-- Character equality, read through `Char.toNat`. -/
theorem char_eq_iff_toNat {c d : Char} : c = d ↔ c.toNat = d.toNat :=
  ⟨fun h => by rw [h], fun h => Char.eq_of_val_eq (UInt32.ext h)⟩

/-- Character equality test, read through `Char.toNat`. -/
theorem beq_char_iff {c d : Char} : ((c == d) = true) ↔ c.toNat = d.toNat := by
  constructor
  · intro h
    rw [beq_iff_eq.mp h]
  · intro h
    rw [Char.eq_of_val_eq (UInt32.ext h)]
    exact beq_self_eq_true d

/-- Numeric reading of the digit-character class. -/
theorem isDigitChar_iff {c : Char} : isDigitChar c = true ↔ 48 ≤ c.toNat ∧ c.toNat ≤ 57 := by
  simp [isDigitChar]

/-- Numeric reading of a regex character range. -/
theorem charBetween_iff {lo c hi : Char} :
    charBetween lo c hi = true ↔ lo.toNat ≤ c.toNat ∧ c.toNat ≤ hi.toNat := by
  simp [charBetween]

/-- Every character of a cleaned string is a digit. -/
theorem mem_cleanDigits_digit (s : String) : ∀ c ∈ (cleanDigits s).data, isDigitChar c = true := by
  intro c hc
  exact (List.mem_filter.mp hc).2

/-- Cleaning is idempotent. -/
theorem cleanDigits_idem (s : String) : cleanDigits (cleanDigits s) = cleanDigits s := by
  unfold cleanDigits
  congr 1
  exact List.filter_eq_self.mpr (mem_cleanDigits_digit s)

/-!
Claim theorems.
-/

/-- C1: `validatePaymentInfo` reports `isValid = true` exactly when the card
number passes `validateCardNumber`, the CVV passes `validateCVV` against the
network identified from the card number, and the expiration passes
`validateExpirationDate`; the identified network (Unknown included) plays no
further role in validity. -/
theorem c1_isValid_iff_all_checks (card cvv m y : String) (cm cy : Int) :
    (validatePaymentInfo card cvv m y cm cy).isValid = true ↔
      (validateCardNumber card = true ∧
       validateCVV cvv (identifyCardType card) = true ∧
       validateExpirationDate m y cm cy = true) := by
  cases h1 : validateCardNumber card <;>
    cases h2 : validateCVV cvv (identifyCardType card) <;>
      cases h3 : validateExpirationDate m y cm cy <;>
        simp [validatePaymentInfo, h1, h2, h3]

/-- C3 counterexample: a CVV containing a non-digit character is accepted
for Visa, because the source strips non-digits instead of rejecting them. -/
theorem c3_counterexample : validateCVV "1a23" CardType.Visa = true ∧ isDigitChar 'a' = false := by
  decide

/-- C3 as amended: `validateCVV` is true iff the number of digit characters
of the CVV is exactly 4 for American Express and exactly 3 for every other
network; non-digit characters are stripped rather than disqualifying. -/
theorem c3_amended_cvv_counts_digits (cvv : String) (ct : CardType) :
    validateCVV cvv ct = true ↔
      cvv.data.countP isDigitChar = (if ct = CardType.AmericanExpress then 4 else 3) := by
  have hc : (cleanDigits cvv).length = cvv.data.countP isDigitChar := by
    simp [cleanDigits, List.countP_eq_length_filter]
  by_cases hct : ct = CardType.AmericanExpress <;> simp [validateCVV, hct, hc]

/-- C8: for a card number of valid cleaned length, the masked number is the
fixed digit-free mask head followed by exactly the last 4 digits of the
cleaned input. -/
theorem c8_mask (s : String) (h13 : 13 ≤ (cleanDigits s).length)
    (h19 : (cleanDigits s).length ≤ 19) :
    (maskCardNumber s).data =
        maskHead.data ++ ((cleanDigits s).data.reverse.take 4).reverse ∧
    ((cleanDigits s).data.reverse.take 4).reverse.length = 4 ∧
    ∀ c ∈ maskHead.data, isDigitChar c = false := by
  have hlen : (cleanDigits s).length = (cleanDigits s).data.length := rfl
  have hrev : ((cleanDigits s).data.reverse.take 4).reverse =
      (cleanDigits s).data.drop ((cleanDigits s).data.length - 4) := by
    rw [List.reverse_take]
    simp
  refine ⟨by rw [hrev]; rfl, ?_, by decide⟩
  rw [hrev]
  simp only [List.length_drop]
  omega

/-- C8 witness at a standard 16-digit Visa test number. -/
theorem c8_mask_witness :
    (maskCardNumber "4532015112830366").data =
      maskHead.data ++ ((cleanDigits "4532015112830366").data.reverse.take 4).reverse :=
  (c8_mask "4532015112830366" (by decide) (by decide)).1

/-- C10: the three cleaning validators depend only on the subsequence of
digit characters of their input, so inserting or removing non-digit
characters anywhere never changes their result. -/
theorem c10_digit_subsequence (s t : String) (h : cleanDigits s = cleanDigits t) :
    validateCardNumber s = validateCardNumber t ∧
    identifyCardType s = identifyCardType t ∧
    ∀ ct : CardType, validateCVV s ct = validateCVV t ct := by
  refine ⟨?_, ?_, fun ct => ?_⟩ <;>
    simp only [validateCardNumber, identifyCardType, validateCVV, h]

/-- C10 witness: dashes and a stray letter do not change any of the three
results. -/
theorem c10_witness :
    validateCardNumber "4111-1111-1111-1111" = validateCardNumber "x4111 1111 1111 1111" ∧
    identifyCardType "4111-1111-1111-1111" = identifyCardType "x4111 1111 1111 1111" ∧
    ∀ ct : CardType, validateCVV "4111-1111-1111-1111" ct = validateCVV "x4111 1111 1111 1111" ct :=
  c10_digit_subsequence "4111-1111-1111-1111" "x4111 1111 1111 1111" (by decide)

/-- C6 counterexample: a well-formed Visa number with non-numeric month and
year fields yields `isValid = true` — malformed expiration fields are not
treated as failing validation (JS `parseInt` gives `NaN` and every `NaN`
comparison is false, so every expiration check is skipped). -/
theorem c6_counterexample :
    (validatePaymentInfo "4532015112830366" "123" "ab" "cd" 10 2025).isValid = true ∧
    parseIntJS "ab" = none ∧ parseIntJS "cd" = none := by
  decide

/-- C6 as amended: on string inputs the facade is total and well-formed
(`isValid` is exactly "no errors"), a failing card number or CVV always
contributes its reason, but non-numeric month and year input passes the
expiration check instead of failing it. -/
theorem c6_amended_wellformed (card cvv m y : String) (cm cy : Int) :
    ((validatePaymentInfo card cvv m y cm cy).isValid = true ↔
        (validatePaymentInfo card cvv m y cm cy).errors = []) ∧
    (validateCardNumber card = false →
        cardErrMsg ∈ (validatePaymentInfo card cvv m y cm cy).errors) ∧
    (validateCVV cvv (identifyCardType card) = false →
        cvvErrMsg (identifyCardType card) ∈ (validatePaymentInfo card cvv m y cm cy).errors) ∧
    (parseIntJS m = none → parseIntJS y = none →
        validateExpirationDate m y cm cy = true) := by
  refine ⟨?_, ?_, ?_, ?_⟩
  · cases h1 : validateCardNumber card <;>
      cases h2 : validateCVV cvv (identifyCardType card) <;>
        cases h3 : validateExpirationDate m y cm cy <;>
          simp [validatePaymentInfo, h1, h2, h3]
  · intro h1
    simp [validatePaymentInfo, h1]
  · intro h2
    simp [validatePaymentInfo, h2]
  · intro hm hy
    simp [validateExpirationDate, hm, hy, jsLt, jsGt, jsEqb]

/-- C7: the facade accumulates, in order, one fixed reason per failing
check — never short-circuiting — the three reasons are pairwise distinct,
the card-number reason mentions the card number, the CVV reason mentions the
CVV and the expiration reason mentions the expiration. -/
theorem c7_error_accumulation (card cvv m y : String) (cm cy : Int) :
    ((validatePaymentInfo card cvv m y cm cy).errors =
        (if validateCardNumber card then [] else [cardErrMsg]) ++
        (if validateCVV cvv (identifyCardType card) then [] else [cvvErrMsg (identifyCardType card)]) ++
        (if validateExpirationDate m y cm cy then [] else [expErrMsg])) ∧
    (validatePaymentInfo card cvv m y cm cy).errors.Nodup ∧
    containsSub "card number" cardErrMsg = true ∧
    containsSub "CVV" (cvvErrMsg (identifyCardType card)) = true ∧
    containsSub "expiration" expErrMsg = true := by
  refine ⟨rfl, ?_, by decide, ?_, by decide⟩
  · cases hct : identifyCardType card <;>
      cases h1 : validateCardNumber card <;>
        cases h2 : validateCVV cvv (identifyCardType card) <;>
          cases h3 : validateExpirationDate m y cm cy <;>
            rw [hct] at h2 <;>
              simp [validatePaymentInfo, h1, h2, h3, hct, cvvErrMsg, cardErrMsg,
                expErrMsg]
  · cases hct : identifyCardType card <;> simp [cvvErrMsg] <;> decide

/-!
C2: the Luhn characterization.  `specSumFrom` is the spec's indexed
formulation; the bridge to the source's toggled-flag loop is proved by
induction.
-/

/-- The indexed checksum depends on the starting index only through its
parity. -/
theorem specSumFrom_add_two (l : List Nat) (i : Nat) :
    specSumFrom (i + 2) l = specSumFrom i l := by
  induction l generalizing i with
  | nil => rfl
  | cons d t ih =>
    have hmod : (i + 2) % 2 = i % 2 := by omega
    simp [specSumFrom, hmod, ih]

/-- The source loop equals the spec's indexed sum, the flag standing for an
odd index. -/
theorem luhnAux_eq_specSumFrom (l : List Char) (b : Bool) :
    luhnAux l b = specSumFrom (if b then 1 else 0) (l.map digitVal) := by
  induction l generalizing b with
  | nil => cases b <;> rfl
  | cons c t ih =>
    cases b with
    | false =>
      simp [luhnAux, specSumFrom, ih, luhnDouble]
    | true =>
      have h2 : specSumFrom 2 (t.map digitVal) = specSumFrom 0 (t.map digitVal) :=
        specSumFrom_add_two (t.map digitVal) 0
      simp [luhnAux, specSumFrom, ih, luhnDouble, h2]

/-- C2: `validateCardNumber` accepts exactly the strings whose cleaned digit
string has length between 13 and 19 and whose right-to-left
alternating-doubling checksum (rightmost digit not doubled, doubled values
above 9 reduced by 9) is divisible by 10. -/
theorem c2_luhn_characterization (s : String) :
    validateCardNumber s = true ↔
      (13 ≤ (cleanDigits s).length ∧ (cleanDigits s).length ≤ 19 ∧
       specSumFrom 0 (((cleanDigits s).data.reverse).map digitVal) % 10 = 0) := by
  unfold validateCardNumber
  simp only [luhnAux_eq_specSumFrom]
  split
  · rename_i hcond
    simp only [Bool.or_eq_true, decide_eq_true_eq] at hcond
    constructor
    · intro h
      cases h
    · intro h
      omega
  · rename_i hcond
    simp only [Bool.or_eq_true, decide_eq_true_eq, not_or, Nat.not_lt] at hcond
    simp only [if_neg, beq_iff_eq]
    constructor
    · intro h
      exact ⟨hcond.1, hcond.2, h⟩
    · intro h
      exact h.2.2

/-- C4 counterexample: a non-numeric month with a plausible year is
accepted, because `parseInt` yields `NaN` and both bound checks on a `NaN`
month are false, so the range test is skipped instead of failing. -/
theorem c4_counterexample :
    validateExpirationDate "abc" "2030" 10 2025 = true ∧ parseIntJS "abc" = none := by
  decide

/-- C4 as amended: `validateExpirationDate` is true iff the month, whenever
it parses, lies in 1..12, and the year, whenever it parses, resolves (2000 +
year below 100) to a year between the current year and the current year plus
20, with a month not below the current month when the resolved year is the
current year; a month or year that does not parse skips its checks and is
accepted. -/
theorem c4_amended_expiration (m y : String) (cm cy : Int) :
    validateExpirationDate m y cm cy = true ↔
      ((∀ em : Int, parseIntJS m = some em → 1 ≤ em ∧ em ≤ 12) ∧
       (∀ ey : Int, parseIntJS y = some ey →
          cy ≤ resolveYear ey ∧ resolveYear ey ≤ cy + 20 ∧
            (resolveYear ey = cy → ∀ em : Int, parseIntJS m = some em → cm ≤ em))) := by
  unfold validateExpirationDate
  rcases hm : parseIntJS m with _ | em <;> rcases hy : parseIntJS y with _ | ey
  · simp [jsLt, jsGt, jsEqb]
  · simp only [jsLt, jsGt, jsEqb, Option.map_some', resolveYear, hm, hy,
      Option.some.injEq, forall_eq', Bool.or_false, Bool.false_or,
      Bool.and_false, Bool.false_and, if_false]
    split_ifs <;> simp_all <;> omega
  · simp only [jsLt, jsGt, jsEqb, Option.map_none', resolveYear, hm, hy,
      Option.some.injEq, forall_eq', Bool.or_false, Bool.false_or,
      Bool.and_false, Bool.false_and, if_false]
    split_ifs <;> simp_all <;> omega
  · simp only [jsLt, jsGt, jsEqb, Option.map_some', resolveYear, hm, hy,
      Option.some.injEq, forall_eq', Bool.or_false, Bool.false_or,
      Bool.and_false, Bool.false_and, if_false]
    split_ifs <;> simp_all <;> omega

/-!
C5: the regex classifier of the source equals the range classifier of the
spec.  The bridge works through `Char.toNat`, comparing each regex character
test with the numeric range it implements.
-/

@[simp] theorem toNatC0 : ('0' : Char).toNat = 48 := rfl

@[simp] theorem toNatC1 : ('1' : Char).toNat = 49 := rfl

@[simp] theorem toNatC2 : ('2' : Char).toNat = 50 := rfl

@[simp] theorem toNatC3 : ('3' : Char).toNat = 51 := rfl

@[simp] theorem toNatC4 : ('4' : Char).toNat = 52 := rfl

@[simp] theorem toNatC5 : ('5' : Char).toNat = 53 := rfl

@[simp] theorem toNatC6 : ('6' : Char).toNat = 54 := rfl

@[simp] theorem toNatC7 : ('7' : Char).toNat = 55 := rfl

@[simp] theorem toNatC8 : ('8' : Char).toNat = 56 := rfl

@[simp] theorem toNatC9 : ('9' : Char).toNat = 57 := rfl

/-- The Visa test `/^4/` is "starting with 4". -/
theorem visa_eq (cs : List Char) : visaStart cs = startsList [ '4' ] cs := by
  rcases cs with _ | ⟨c, t⟩
  · rfl
  · apply bool_eq_of_iff
    simp [visaStart, startsList, beq_char_iff, char_eq_iff_toNat] <;> omega

/-- The Mastercard test `/^5[1-5]|^2[2-7]/` is "two-digit head in 51–55 or
22–27". -/
theorem mc_eq (cs : List Char) (hd : ∀ c ∈ cs, isDigitChar c = true) :
    mcStart cs = (valInRange 2 51 55 cs || valInRange 2 22 27 cs) := by
  rcases cs with _ | ⟨a, _ | ⟨b, t⟩⟩
  · rfl
  · rfl
  · have ha := isDigitChar_iff.mp (hd a (by simp))
    have hb := isDigitChar_iff.mp (hd b (by simp))
    apply bool_eq_of_iff
    simp [mcStart, valInRange, takeVal, charBetween, beq_char_iff,
      char_eq_iff_toNat, digitVal] <;> omega

/-- The American Express test `/^3[47]/` is "starting with 34 or 37". -/
theorem amex_eq (cs : List Char) (hd : ∀ c ∈ cs, isDigitChar c = true) :
    amexStart cs = (startsList [ '3', '4' ] cs || startsList [ '3', '7' ] cs) := by
  rcases cs with _ | ⟨a, _ | ⟨b, t⟩⟩
  · rfl
  · simp [amexStart, startsList]
  · apply bool_eq_of_iff
    simp [amexStart, startsList, beq_char_iff, char_eq_iff_toNat] <;> omega

/-- The Discover regex is "starting with 6011 or 65, three-digit head in
644–649, or six-digit head in 622126–622925". -/
theorem disc_eq (cs : List Char) (hd : ∀ c ∈ cs, isDigitChar c = true) :
    discStart cs =
      (startsList [ '6', '0', '1', '1' ] cs || startsList [ '6', '5' ] cs ||
        valInRange 3 644 649 cs || valInRange 6 622126 622925 cs) := by
  rcases cs with _ | ⟨a, _ | ⟨b, _ | ⟨c, _ | ⟨d, _ | ⟨e, _ | ⟨f, t⟩⟩⟩⟩⟩⟩
  · rfl
  · have ha := isDigitChar_iff.mp (hd a (by simp))
    apply bool_eq_of_iff
    simp [discStart, discTail, d622, startsList, valInRange, takeVal,
      charBetween, beq_char_iff, char_eq_iff_toNat, digitVal, isDigitChar] <;> omega
  · have ha := isDigitChar_iff.mp (hd a (by simp))
    have hb := isDigitChar_iff.mp (hd b (by simp))
    apply bool_eq_of_iff
    simp [discStart, discTail, d622, startsList, valInRange, takeVal,
      charBetween, beq_char_iff, char_eq_iff_toNat, digitVal, isDigitChar] <;> omega
  · have ha := isDigitChar_iff.mp (hd a (by simp))
    have hb := isDigitChar_iff.mp (hd b (by simp))
    have hc := isDigitChar_iff.mp (hd c (by simp))
    apply bool_eq_of_iff
    simp [discStart, discTail, d622, startsList, valInRange, takeVal,
      charBetween, beq_char_iff, char_eq_iff_toNat, digitVal, isDigitChar] <;> omega
  · have ha := isDigitChar_iff.mp (hd a (by simp))
    have hb := isDigitChar_iff.mp (hd b (by simp))
    have hc := isDigitChar_iff.mp (hd c (by simp))
    have hd4 := isDigitChar_iff.mp (hd d (by simp))
    apply bool_eq_of_iff
    simp [discStart, discTail, d622, startsList, valInRange, takeVal,
      charBetween, beq_char_iff, char_eq_iff_toNat, digitVal, isDigitChar] <;> omega
  · have ha := isDigitChar_iff.mp (hd a (by simp))
    have hb := isDigitChar_iff.mp (hd b (by simp))
    have hc := isDigitChar_iff.mp (hd c (by simp))
    have hd4 := isDigitChar_iff.mp (hd d (by simp))
    have he := isDigitChar_iff.mp (hd e (by simp))
    apply bool_eq_of_iff
    simp [discStart, discTail, d622, startsList, valInRange, takeVal,
      charBetween, beq_char_iff, char_eq_iff_toNat, digitVal, isDigitChar] <;> omega
  · have ha := isDigitChar_iff.mp (hd a (by simp))
    have hb := isDigitChar_iff.mp (hd b (by simp))
    have hc := isDigitChar_iff.mp (hd c (by simp))
    have hd4 := isDigitChar_iff.mp (hd d (by simp))
    have he := isDigitChar_iff.mp (hd e (by simp))
    have hf := isDigitChar_iff.mp (hd f (by simp))
    apply bool_eq_of_iff
    simp [discStart, discTail, d622, startsList, valInRange, takeVal,
      charBetween, beq_char_iff, char_eq_iff_toNat, digitVal, isDigitChar] <;> omega

/-- C5: the source's prefix classifier agrees with the spec's description on
every input — Visa on a leading 4 (already for "4" alone), American Express
on 34/37, Mastercard on 51–55 or 22–27, Discover on 6011, 65, 644–649 or a
six-digit head in 622126–622925, Unknown (empty string included)
otherwise. -/
theorem c5_identify_matches_spec (s : String) :
    identifyCardType s = specIdentifyCardType s := by
  have hd := mem_cleanDigits_digit s
  simp only [identifyCardType, specIdentifyCardType]
  rw [visa_eq, mc_eq _ hd, amex_eq _ hd, disc_eq _ hd]

/-!
C9: formatting.  The grouped output of the source (global 4-digit replace
followed by trim) equals the spec's canonical blocks-of-4 grouping, and
removing spaces always recovers the cleaned digit string.
-/

@[simp] theorem toNatSpace : (' ' : Char).toNat = 32 := rfl

@[simp] theorem toNatTab : ('\t' : Char).toNat = 9 := rfl

@[simp] theorem toNatLF : ('\n' : Char).toNat = 10 := rfl

@[simp] theorem toNatCR : ('\r' : Char).toNat = 13 := rfl

/-- A digit character is not whitespace. -/
theorem digit_not_space {c : Char} (h : isDigitChar c = true) : isSpaceChar c = false := by
  have hb := isDigitChar_iff.mp h
  cases hs : isSpaceChar c
  · rfl
  · exfalso
    simp [isSpaceChar, beq_char_iff, char_eq_iff_toNat] at hs
    omega

/-- A digit character survives the space filter. -/
theorem digit_nospace_pred {c : Char} (h : isDigitChar c = true) : (!(c == ' ')) = true := by
  have hb := isDigitChar_iff.mp h
  simp [beq_char_iff, char_eq_iff_toNat]
  omega

/-- Filtering the spaces back out of the grouped digits recovers them. -/
theorem filter_group4 (l : List Char) :
    (∀ c ∈ l, isDigitChar c = true) →
      (group4 l).filter (fun c => !(c == ' ')) = l := by
  induction l using group4.induct
  case case1 a b c d rest ih =>
    intro hd
    have pa := digit_nospace_pred (hd a (by simp))
    have pb := digit_nospace_pred (hd b (by simp))
    have pc := digit_nospace_pred (hd c (by simp))
    have pd := digit_nospace_pred (hd d (by simp))
    have hrest := ih (fun x hx => hd x (by simp [hx]))
    simp only [group4, List.filter_cons, pa, pb, pc, pd, if_pos]
    simp [hrest]
  case case2 l hx =>
    intro hd
    have hself := List.filter_eq_self.mpr (fun c hc => digit_nospace_pred (hd c hc))
    rcases l with _ | ⟨a, _ | ⟨b, _ | ⟨c, _ | ⟨d, rest⟩⟩⟩⟩
    · exact hself
    · exact hself
    · exact hself
    · exact hself
    · exact (hx a b c d rest rfl).elim

/-- The source grouping is the canonical grouping plus a trailing space
exactly when the digit count is a positive multiple of 4. -/
theorem group4_eq_spec (l : List Char) :
    group4 l = specGroup4 l ++
      (if l.length % 4 = 0 ∧ l ≠ [] then [ ' ' ] else []) := by
  induction l using group4.induct
  case case1 a b c d rest ih =>
    by_cases hr : rest = []
    · subst hr
      rw [specGroup4]
      simp [group4]
    · obtain ⟨x, t, rfl⟩ := List.exists_cons_of_ne_nil hr
      have hlen : ¬((a :: b :: c :: d :: x :: t).length ≤ 4) := by
        simp
      rw [specGroup4, if_neg hlen]
      have hcond : ((a :: b :: c :: d :: x :: t).length % 4 = 0 ∧
          (a :: b :: c :: d :: x :: t) ≠ ([] : List Char)) ↔
          ((x :: t).length % 4 = 0 ∧ (x :: t) ≠ ([] : List Char)) := by
        simp only [List.length_cons, ne_eq, List.cons_ne_nil, not_false_eq_true, and_true]
        omega
      simp only [group4, ih, hcond]
      simp
  case case2 l hx =>
    rcases l with _ | ⟨a, _ | ⟨b, _ | ⟨c, _ | ⟨d, rest⟩⟩⟩⟩
    · rw [specGroup4]
      simp [group4]
    · rw [specGroup4]
      simp [group4]
    · rw [specGroup4]
      simp [group4]
    · rw [specGroup4]
      simp [group4]
    · exact (hx a b c d rest rfl).elim

/-- The canonical grouping of a nonempty list keeps its head. -/
theorem spec_cons (c : Char) (t : List Char) : ∃ r, specGroup4 (c :: t) = c :: r := by
  rw [specGroup4]
  split
  · exact ⟨t, rfl⟩
  · exact ⟨List.take 3 t ++ ' ' :: specGroup4 (List.drop 4 (c :: t)), rfl⟩

/-- The canonical grouping of a nonempty all-digit list ends in a digit. -/
theorem spec_last : ∀ (n : Nat) (l : List Char), l.length = n → l ≠ [] →
    (∀ c ∈ l, isDigitChar c = true) →
      ∃ m d, specGroup4 l = m ++ [d] ∧ isDigitChar d = true := by
  intro n
  induction n using Nat.strong_induction_on with
  | _ n ih =>
    intro l hlen hne hd
    rw [specGroup4]
    split
    · exact ⟨l.dropLast, l.getLast hne,
        (List.dropLast_append_getLast hne).symm, hd _ (List.getLast_mem hne)⟩
    · rename_i hgt
      have hdne : l.drop 4 ≠ [] := by
        rw [← List.length_pos]
        simp at hgt ⊢
        omega
      obtain ⟨m, d, hs, hdig⟩ := ih ((l.drop 4).length)
        (by subst hlen; simp at hgt ⊢; omega) (l.drop 4) rfl hdne
        (fun c hc => hd c (List.mem_of_mem_drop hc))
      exact ⟨l.take 4 ++ ' ' :: m, d, by rw [hs]; simp, hdig⟩

/-- Trimming a list that starts and ends in a non-space character, followed
by at most one trailing space, yields the list itself. -/
theorem trim_sandwich (m : List Char) (c d : Char) (r : List Char)
    (X : List Char) (hXc : X = c :: r) (hXm : X = m ++ [d])
    (hc : isSpaceChar c = false) (hd : isSpaceChar d = false) (E : List Char)
    (hE : E = [] ∨ E = [ ' ' ]) :
    jsTrim (X ++ E) = X := by
  unfold jsTrim
  have h1 : (X ++ E).dropWhile isSpaceChar = X ++ E := by
    rw [hXc]
    simp [List.dropWhile_cons, hc]
  rw [h1]
  have hsp : isSpaceChar ' ' = true := rfl
  rcases hE with hE | hE <;> subst hE <;>
    rw [hXm] <;>
      simp [List.reverse_append, List.dropWhile_cons, hd, hsp]

/-- The source's trim of the source's grouping is the canonical grouping. -/
theorem trim_group4 (l : List Char) (hdl : ∀ c ∈ l, isDigitChar c = true) :
    jsTrim (group4 l) = specGroup4 l := by
  rcases hl : l with _ | ⟨c, t⟩
  · simp [group4, jsTrim, specGroup4]
  · have hc : isDigitChar c = true := hdl c (by simp [hl])
    obtain ⟨m, d, hspec, hdig⟩ := spec_last (c :: t).length (c :: t) rfl (by simp)
      (by rw [← hl]; exact hdl)
    obtain ⟨r, hr⟩ := spec_cons c t
    rw [group4_eq_spec]
    exact trim_sandwich m c d r _ hr hspec (digit_not_space hc) (digit_not_space hdig)
      _ (by split <;> simp)

/-- Filtering the spaces out of the canonical grouping recovers the
digits. -/
theorem filter_spec (l : List Char) (hdl : ∀ c ∈ l, isDigitChar c = true) :
    (specGroup4 l).filter (fun c => !(c == ' ')) = l := by
  have h1 := filter_group4 l hdl
  rw [group4_eq_spec, List.filter_append] at h1
  have h2 : ((if l.length % 4 = 0 ∧ l ≠ [] then [ ' ' ] else [])).filter
      (fun c => !(c == ' ')) = [] := by
    split <;> simp
  rw [h2, List.append_nil] at h1
  exact h1

/-- Reassembling the 4/6/5/rest segments gives back the whole list. -/
theorem amex_segments (l : List Char) :
    l.take 4 ++ ((l.drop 4).take 6 ++ ((l.drop 10).take 5 ++ l.drop 15)) = l := by
  have h1 : (l.drop 10).take 5 ++ l.drop 15 = l.drop 10 := by
    have h := List.take_append_drop 5 (l.drop 10)
    rw [List.drop_drop] at h
    norm_num at h
    exact h
  have h2 : (l.drop 4).take 6 ++ l.drop 10 = l.drop 4 := by
    have h := List.take_append_drop 6 (l.drop 4)
    rw [List.drop_drop] at h
    norm_num at h
    exact h
  rw [h1, h2, List.take_append_drop]

/-- C9 counterexample: a 14-digit number identified as American Express is
returned verbatim by the formatter — no 4-6-5 grouping (the replace regex
needs 15 digits to fire). -/
theorem c9_counterexample :
    identifyCardType "34123456789012" = CardType.AmericanExpress ∧
    formatCardNumber "34123456789012" = "34123456789012" ∧
    (formatCardNumber "34123456789012").data.all (fun c => !(c == ' ')) = true := by
  decide

/-- C9 as amended: for every input, removing spaces from the formatted
number recovers the cleaned digit string; numbers not identified as
American Express are grouped in blocks of 4 left to right regardless of
total length; numbers identified as American Express are grouped 4-6-5 when
they have exactly 15 digits (shorter ones stay ungrouped, longer ones have
their first 15 digits grouped 4-6-5 and the rest appended). -/
theorem c9_amended_formatting (s : String) :
    removeSpaces (formatCardNumber s) = cleanDigits s ∧
    (identifyCardType s ≠ CardType.AmericanExpress →
      (formatCardNumber s).data = specGroup4 (cleanDigits s).data) ∧
    (identifyCardType s = CardType.AmericanExpress ∧ (cleanDigits s).data.length = 15 →
      (formatCardNumber s).data =
        (cleanDigits s).data.take 4 ++ ' ' :: ((cleanDigits s).data.drop 4).take 6 ++
          ' ' :: ((cleanDigits s).data.drop 10).take 5) := by
  have hdl := mem_cleanDigits_digit s
  have hty : identifyCardType (cleanDigits s) = identifyCardType s := by
    simp only [identifyCardType, cleanDigits_idem]
  by_cases hA : identifyCardType s = CardType.AmericanExpress
  · have hfmt : formatCardNumber s =
        (if (cleanDigits s).data.length < 15 then cleanDigits s
         else String.mk ((cleanDigits s).data.take 4 ++
           ' ' :: ((cleanDigits s).data.drop 4).take 6 ++
           ' ' :: (((cleanDigits s).data.drop 10).take 5 ++ (cleanDigits s).data.drop 15))) := by
      simp only [formatCardNumber, hty, hA]
      simp
    refine ⟨?_, fun hne => absurd hA hne, fun hlen => ?_⟩
    · rw [hfmt]
      split
      · unfold removeSpaces
        have : (cleanDigits s).data.filter (fun c => !(c == ' ')) = (cleanDigits s).data :=
          List.filter_eq_self.mpr (fun c hc => digit_nospace_pred (hdl c hc))
        rw [this]
      · unfold removeSpaces
        have hseg : ∀ xs : List Char, (∀ c ∈ xs, c ∈ (cleanDigits s).data) →
            xs.filter (fun c => !(c == ' ')) = xs := fun xs hsub =>
          List.filter_eq_self.mpr (fun c hc => digit_nospace_pred (hdl c (hsub c hc)))
        simp only [List.filter_append, List.filter_cons]
        simp only [show (!(' ' == ' ')) = false from rfl, Bool.false_eq_true, if_false]
        rw [hseg _ (fun c hc => List.mem_of_mem_take hc),
          hseg _ (fun c hc => List.mem_of_mem_drop (List.mem_of_mem_take hc)),
          hseg _ (fun c hc => List.mem_of_mem_drop (List.mem_of_mem_take hc)),
          hseg _ (fun c hc => List.mem_of_mem_drop hc)]
        have hgoal := amex_segments (cleanDigits s).data
        refine Eq.trans ?_ (congrArg String.mk hgoal)
        congr 1
        simp [List.append_assoc]
    · rw [hfmt, if_neg (by omega)]
      have hdrop : (cleanDigits s).data.drop 15 = [] :=
        List.drop_eq_nil_of_le (by omega)
      simp [hdrop]
  · have hfmt : formatCardNumber s = String.mk (jsTrim (group4 (cleanDigits s).data)) := by
      simp only [formatCardNumber, hty]
      rw [if_neg hA]
    have htrim := trim_group4 (cleanDigits s).data hdl
    refine ⟨?_, fun _ => by rw [hfmt]; exact htrim, fun hl => absurd hl.1 hA⟩
    rw [hfmt]
    unfold removeSpaces
    have : (String.mk (jsTrim (group4 (cleanDigits s).data))).data =
        specGroup4 (cleanDigits s).data := htrim
    rw [this, filter_spec _ hdl]

end CampusSwap
